import Mathlib

/-!
Shallow embedding of the cpos-api Sale Transaction & Inventory Consistency
Engine: the sale-creation route (src/routes/customers.js, sales section),
the status-update route together with the PostgreSQL triggers and CHECK
constraints of initialdb.sql, and the stock-adjustment route
(src/routes/inventory.js).  Money values are modelled as rationals; a
JavaScript NaN arising from a missing request field is modelled as `none`
in `Option ℚ`.
-/

namespace Cpos

/-- Catalog product row (products table).  `quantity` is the stock counter
that the inventory route reads and writes via `prisma.product`. -/
structure ProductRow where
  id : Nat
  price : ℚ
  taxRate : ℚ
  quantity : ℚ
  deriving Repr, DecidableEq

/-- Stock record row (inventory table), keyed by (product, location). -/
structure InvRow where
  productId : Nat
  location : Nat
  quantity : Int
  deriving Repr, DecidableEq

/-- Customer aggregate fields (customers table). -/
structure CustomerRow where
  id : Nat
  totalPurchases : ℚ
  loyaltyPoints : Int
  deriving Repr, DecidableEq

/-- Sale line item (sale_items table).  `taxAmount` is `none` when the
JavaScript computation produced NaN (missing `item.taxRate`). -/
structure SaleItemRow where
  productId : Nat
  quantity : Int
  unitPrice : ℚ
  discount : ℚ
  taxAmount : Option ℚ
  totalPrice : ℚ
  deriving Repr, DecidableEq

/-- Sale status lookup values seeded in sale_statuses. -/
inductive SaleStatus where
  | pending
  | completed
  | cancelled
  | refunded
  deriving Repr, DecidableEq

/-- Sale header row (sales table); a sale owns its items. -/
structure SaleRow where
  id : Nat
  customerId : Option Nat
  totalAmount : ℚ
  taxAmount : ℚ
  discountAmount : ℚ
  status : SaleStatus
  items : List SaleItemRow
  deriving Repr, DecidableEq

/-- Stock operation kinds accepted by the inventory route. -/
inductive StockOp where
  | add
  | subtract
  | set
  deriving Repr, DecidableEq

/-- Inventory audit entry (inventoryLog table). -/
structure LogRow where
  productId : Nat
  operation : StockOp
  quantity : ℚ
  previousQuantity : ℚ
  newQuantity : ℚ
  deriving Repr, DecidableEq

/-- The persistent state touched by the engine. -/
structure DB where
  products : List ProductRow
  inventory : List InvRow
  customers : List CustomerRow
  sales : List SaleRow
  logs : List LogRow
  deriving Repr, DecidableEq

/-- One line of a create-sale request body.  `discount` and `taxRate` may be
omitted in the JSON; `taxRate` has no `|| 0` default in the code. -/
structure ReqItem where
  productId : Nat
  quantity : Int
  unitPrice : ℚ
  discount : Option ℚ
  taxRate : Option ℚ
  deriving Repr, DecidableEq

/-- A create-sale request after JSON parsing (`discountAmount = 0` default
already applied, status ids resolved to their lookup names). -/
structure SaleReq where
  customerId : Option Nat
  items : List ReqItem
  status : SaleStatus
  discountAmount : ℚ
  deriving Repr, DecidableEq

/-- Injected backend failures inside the createSale `$transaction`: the sale
insert, the first inventory update, or the customer update may throw. -/
structure Fault where
  saleInsert : Bool
  invUpdate : Bool
  custUpdate : Bool
  deriving Repr, DecidableEq

/-- All backend writes succeed. -/
def noFault : Fault := ⟨false, false, false⟩

/-- Errors surfaced by the create-sale route: 400 for a missing product,
500 for anything thrown inside the transaction. -/
inductive SaleError where
  | productNotFound (pid : Nat)
  | internalError
  deriving Repr, DecidableEq

def findProduct (db : DB) (pid : Nat) : Option ProductRow :=
  db.products.find? (fun p => decide (p.id = pid))

/-- The pre-transaction totals loop of the create-sale route: per line,
`itemTotal = product.price * quantity` and
`itemTax = itemTotal * (product.taxRate / 100)`, accumulated; the loop
returns 400 at the first missing product. -/
def computeTotals (db : DB) : List ReqItem → Except Nat (ℚ × ℚ)
  | [] => .ok (0, 0)
  | it :: rest =>
    match findProduct db it.productId with
    | none => .error it.productId
    | some p =>
      match computeTotals db rest with
      | .error e => .error e
      | .ok (s, t) =>
        .ok (p.price * (it.quantity : ℚ) + s,
             p.price * (it.quantity : ℚ) * (p.taxRate / 100) + t)

/-- Line 498 of the sales route: `totalAmount = subtotal + taxAmount -
discountAmount`, with no flooring. -/
def saleTotalAmount (subtotal taxAmount discountAmount : ℚ) : ℚ :=
  subtotal + taxAmount - discountAmount

/-- The nested `saleItems.create` payload: every monetary field comes from
the request item itself; a missing `item.taxRate` makes the stored
`taxAmount` NaN (`none`). -/
def mkSaleItem (it : ReqItem) : SaleItemRow :=
  { productId := it.productId
    quantity := it.quantity
    unitPrice := it.unitPrice
    discount := it.discount.getD 0
    taxAmount := it.taxRate.map
      (fun r => it.unitPrice * (it.quantity : ℚ) * r / 100)
    totalPrice := it.unitPrice * (it.quantity : ℚ) - it.discount.getD 0 }

/-- `prisma.inventory.updateMany({where:{productId}, data:{quantity:
{decrement}}})`: every stock row of the product, at every location, is
decremented. -/
def decrementProduct (inv : List InvRow) (pid : Nat) (q : Int) : List InvRow :=
  inv.map (fun r =>
    if r.productId = pid then { r with quantity := r.quantity - q } else r)

/-- The `CHECK (quantity >= 0)` constraint of the inventory table, checked
on the rows the statement updated. -/
def checkNonneg (inv : List InvRow) (pid : Nat) : Bool :=
  inv.all (fun r => if r.productId = pid then decide (0 ≤ r.quantity) else true)

/-- The per-line inventory update loop of the transaction body; a CHECK
violation (or an injected backend fault) aborts the whole transaction. -/
def applyInvUpdates (failFirst : Bool) :
    List InvRow → List ReqItem → Except Unit (List InvRow)
  | inv, [] => .ok inv
  | inv, it :: rest =>
    if failFirst then .error () else
    let inv1 := decrementProduct inv it.productId it.quantity
    if checkNonneg inv1 it.productId then applyInvUpdates false inv1 rest
    else .error ()

/-- The foreign key `sales.customer_id REFERENCES customers(id)`. -/
def customerOk (db : DB) : Option Nat → Bool
  | none => true
  | some cid => db.customers.any (fun c => decide (c.id = cid))

/-- The customer-aggregate update of the transaction body: `totalPurchases`
incremented by the sale total, `loyaltyPoints` by `Math.floor(total / 10)`. -/
def bumpCustomer (cs : List CustomerRow) (cid : Nat) (total : ℚ) :
    List CustomerRow :=
  cs.map (fun c =>
    if c.id = cid then
      { c with
        totalPurchases := c.totalPurchases + total
        loyaltyPoints := c.loyaltyPoints + ⌊total / 10⌋ }
    else c)

/-- The body of the `prisma.$transaction` callback: insert the sale header
and items (subject to the `CHECK (total_amount >= 0)` constraint and the
customer foreign key), run the inventory update loop, then update the
customer aggregates.  Any failure aborts the whole body. -/
def txBody (fault : Fault) (db : DB) (req : SaleReq) (subtotal tax : ℚ) :
    Except Unit (DB × SaleRow) :=
  let total := saleTotalAmount subtotal tax req.discountAmount
  if fault.saleInsert then .error () else
  if total < 0 then .error () else
  if customerOk db req.customerId then
    let sale : SaleRow :=
      { id := db.sales.length
        customerId := req.customerId
        totalAmount := total
        taxAmount := tax
        discountAmount := req.discountAmount
        status := req.status
        items := req.items.map mkSaleItem }
    let db1 : DB := { db with sales := db.sales ++ [sale] }
    match applyInvUpdates fault.invUpdate db1.inventory req.items with
    | .error _ => .error ()
    | .ok inv1 =>
      let db2 : DB := { db1 with inventory := inv1 }
      match req.customerId with
      | none => .ok (db2, sale)
      | some cid =>
        if fault.custUpdate then .error () else
        .ok ({ db2 with
                customers := bumpCustomer db2.customers cid total }, sale)
  else .error ()

/-- The create-sale route: the totals loop runs before the transaction and
returns 400 on a missing product with no write; the transaction either
commits all of its writes or rolls back, surfacing a 500. -/
def createSale (fault : Fault) (db : DB) (req : SaleReq) :
    DB × Except SaleError SaleRow :=
  match computeTotals db req.items with
  | .error pid => (db, .error (.productNotFound pid))
  | .ok st =>
    match txBody fault db req st.1 st.2 with
    | .ok r => (r.1, .ok r.2)
    | .error _ => (db, .error .internalError)

/-- Errors surfaced by the status-update route. -/
inductive TransError where
  | saleNotFound
  | internalError
  deriving Repr, DecidableEq

/-- `SUM(quantity) FROM sale_items WHERE sale_id = NEW.id AND product_id =
inventory.product_id` of the trigger bodies. -/
def saleItemQty (items : List SaleItemRow) (pid : Nat) : Int :=
  (items.foldr (fun it a => if it.productId = pid then it.quantity + a else a) 0)

/-- Whether the trigger's `product_id IN (SELECT product_id FROM sale_items
WHERE sale_id = NEW.id)` filter matches a stock row. -/
def soldBy (items : List SaleItemRow) (pid : Nat) : Bool :=
  items.any (fun it => decide (it.productId = pid))

/-- The trigger's stock update: every inventory row of a sold product is
shifted by `sign` times the per-product item total. -/
def invApplyDelta (inv : List InvRow) (items : List SaleItemRow) (sign : Int) :
    List InvRow :=
  inv.map (fun r =>
    if soldBy items r.productId then
      { r with quantity := r.quantity + sign * saleItemQty items r.productId }
    else r)

/-- The `CHECK (quantity >= 0)` constraint on the rows the trigger updated. -/
def deltaRowsOk (inv : List InvRow) (items : List SaleItemRow) : Bool :=
  inv.all (fun r => if soldBy items r.productId then decide (0 ≤ r.quantity)
                    else true)

/-- The `update_customer_total_purchases` trigger body for one direction:
map `totalPurchases` through `f` at the sale's customer (an UPDATE matching
zero rows when the sale has no customer). -/
def custApply (cs : List CustomerRow) (cid : Option Nat) (f : ℚ → ℚ) :
    List CustomerRow :=
  match cid with
  | none => cs
  | some c =>
    cs.map (fun cu =>
      if cu.id = c then { cu with totalPurchases := f cu.totalPurchases }
      else cu)

/-- The status-update route (`PUT /:id/status`) together with the two
AFTER UPDATE triggers of initialdb.sql: entering `completed` decrements
stock per sale item and adds the sale total to the customer's
`totalPurchases`; a `completed → cancelled` update does the reverse with
`GREATEST(total_purchases - total_amount, 0)`; every other transition only
writes the status.  A CHECK violation aborts the whole update. -/
def updateSaleStatus (db : DB) (saleId : Nat) (newStatus : Option SaleStatus) :
    DB × Except TransError SaleRow :=
  match db.sales.find? (fun s => decide (s.id = saleId)) with
  | none => (db, .error .saleNotFound)
  | some s =>
    let new := newStatus.getD s.status
    let s' : SaleRow := { s with status := new }
    let sales1 := db.sales.map (fun t => if t.id = saleId then s' else t)
    if new = .completed ∧ s.status ≠ .completed then
      let inv1 := invApplyDelta db.inventory s.items (-1)
      if deltaRowsOk inv1 s.items then
        ({ db with
            sales := sales1
            inventory := inv1
            customers := custApply db.customers s.customerId
              (fun tp => tp + s.totalAmount) }, .ok s')
      else (db, .error .internalError)
    else if new = .cancelled ∧ s.status = .completed then
      let inv1 := invApplyDelta db.inventory s.items 1
      if deltaRowsOk inv1 s.items then
        ({ db with
            sales := sales1
            inventory := inv1
            customers := custApply db.customers s.customerId
              (fun tp => max (tp - s.totalAmount) 0) }, .ok s')
      else (db, .error .internalError)
    else
      ({ db with sales := sales1 }, .ok s')

/-- Errors surfaced by the stock-adjustment route. -/
inductive AdjError where
  | invalidQuantity
  | productNotFound
  | internalError
  deriving Repr, DecidableEq

/-- Whether the audit-log insert of the stock-adjustment route throws. -/
structure AdjFault where
  logInsert : Bool
  deriving Repr, DecidableEq

/-- The route's quantity computation: `add` adds, `subtract` clamps at 0,
`set` stores the amount. -/
def adjNewQuantity (op : StockOp) (old amount : ℚ) : ℚ :=
  match op with
  | .add => old + amount
  | .subtract => max 0 (old - amount)
  | .set => amount

/-- The stock-adjustment route (`PUT /:id/stock`): `!quantity || quantity <
0` rejects the request, the product row is updated, and only then is the
audit entry inserted — the two writes are not wrapped in a transaction, so
a failing log insert leaves the quantity change in place. -/
def adjustStock (fault : AdjFault) (db : DB) (pid : Nat) (amount : ℚ)
    (op : StockOp) : DB × Except AdjError ProductRow :=
  if amount = 0 ∨ amount < 0 then (db, .error .invalidQuantity) else
  match findProduct db pid with
  | none => (db, .error .productNotFound)
  | some p =>
    let newQ := adjNewQuantity op p.quantity amount
    let p' : ProductRow := { p with quantity := newQ }
    let db1 : DB :=
      { db with products := db.products.map (fun q => if q.id = pid then p' else q) }
    if fault.logInsert then (db1, .error .internalError) else
    let entry : LogRow :=
      { productId := pid
        operation := op
        quantity := amount
        previousQuantity := p.quantity
        newQuantity := newQ }
    ({ db1 with logs := db1.logs ++ [entry] }, .ok p')

/-- Total quantity requested for one product across the request lines. -/
def reqQty (items : List ReqItem) (pid : Nat) : Int :=
  items.foldr (fun it a => if it.productId = pid then it.quantity + a else a) 0

/-- True when the route response is an error. -/
def isErr {ε α : Type} : Except ε α → Bool
  | .error _ => true
  | .ok _ => false

/-- HTTP status the create-sale route attaches to each error. -/
def SaleError.httpStatus : SaleError → Nat
  | .productNotFound _ => 400
  | .internalError => 500

/-- JavaScript `+` on possibly-NaN numbers: NaN propagates. -/
def jsAdd : Option ℚ → Option ℚ → Option ℚ
  | some x, some y => some (x + y)
  | _, _ => none

-- Concrete fixtures used by the claim-level theorems below.

/-- One product priced 100 with tax rate 8, stock 10 at one location, one
customer. -/
def dbA : DB :=
  { products := [⟨1, 100, 8, 0⟩]
    inventory := [⟨1, 0, 10⟩]
    customers := [⟨7, 0, 0⟩]
    sales := []
    logs := [] }

/-- A one-line sale request: 5 units of product 1, 10 off. -/
def reqA : SaleReq :=
  { customerId := some 7
    items := [⟨1, 5, 100, none, some 8⟩]
    status := .pending
    discountAmount := 10 }

/-- A request referencing a product id absent from the catalog. -/
def reqMissing : SaleReq :=
  { customerId := none
    items := [⟨99, 1, 5, none, none⟩]
    status := .pending
    discountAmount := 0 }

/-- The spec's no-oversell scenario: stock 3 of product 1. -/
def db2 : DB :=
  { products := [⟨1, 100, 0, 0⟩]
    inventory := [⟨1, 0, 3⟩]
    customers := []
    sales := []
    logs := [] }

/-- A request for 5 units against stock 3. -/
def req2 : SaleReq :=
  { customerId := none
    items := [⟨1, 5, 100, none, some 0⟩]
    status := .completed
    discountAmount := 0 }

/-- The spec's round-trip-total scenario: price 100, tax rate 8. -/
def db3 : DB :=
  { products := [⟨1, 100, 8, 0⟩]
    inventory := [⟨1, 0, 10⟩]
    customers := []
    sales := []
    logs := [] }

/-- One unit of product 1 with `discountAmount = 200 > 108`. -/
def req3 : SaleReq :=
  { customerId := none
    items := [⟨1, 1, 100, none, some 8⟩]
    status := .pending
    discountAmount := 200 }

/-- One unit of product 1 with `discountAmount = 10`. -/
def req3ok : SaleReq :=
  { customerId := none
    items := [⟨1, 1, 100, none, some 8⟩]
    status := .pending
    discountAmount := 10 }

/-- The sale the route stores for `req3ok` against `db3`. -/
def sale3 : SaleRow :=
  { id := 0
    customerId := none
    totalAmount := saleTotalAmount 100 8 10
    taxAmount := 8
    discountAmount := 10
    status := .pending
    items := [mkSaleItem ⟨1, 1, 100, none, some 8⟩] }

/-- The state after `createSale noFault db3 req3ok`. -/
def db3res : DB :=
  { products := [⟨1, 100, 8, 0⟩]
    inventory := [⟨1, 0, 9⟩]
    customers := []
    sales := [sale3]
    logs := [] }

/-- Product 1 with stock 10; used for the status-effect scenarios. -/
def db5 : DB :=
  { products := [⟨1, 100, 0, 0⟩]
    inventory := [⟨1, 0, 10⟩]
    customers := []
    sales := []
    logs := [] }

/-- A pending sale request for 5 units of product 1. -/
def req5 : SaleReq :=
  { customerId := none
    items := [⟨1, 5, 100, none, some 0⟩]
    status := .pending
    discountAmount := 0 }

/-- The sale the route stores for `req5` against `db5`. -/
def sale5 : SaleRow :=
  { id := 0
    customerId := none
    totalAmount := saleTotalAmount 500 0 0
    taxAmount := 0
    discountAmount := 0
    status := .pending
    items := [mkSaleItem ⟨1, 5, 100, none, some 0⟩] }

/-- The state after `createSale noFault db5 req5`. -/
def db5res : DB :=
  { products := [⟨1, 100, 0, 0⟩]
    inventory := [⟨1, 0, 5⟩]
    customers := []
    sales := [sale5]
    logs := [] }

/-- A completed sale of 5 units of product 1 for customer 7, total 100. -/
def sale6 : SaleRow :=
  { id := 0
    customerId := some 7
    totalAmount := 100
    taxAmount := 0
    discountAmount := 0
    status := .completed
    items := [⟨1, 5, 20, 0, some 0, 100⟩] }

/-- State holding `sale6`: stock 2, customer 7 with totals (100, 10). -/
def db6 : DB :=
  { products := [⟨1, 20, 0, 0⟩]
    inventory := [⟨1, 0, 2⟩]
    customers := [⟨7, 100, 10⟩]
    sales := [sale6]
    logs := [] }

/-- Product 1 stocked at two locations. -/
def db7 : DB :=
  { products := [⟨1, 100, 0, 0⟩]
    inventory := [⟨1, 0, 10⟩, ⟨1, 1, 10⟩]
    customers := []
    sales := []
    logs := [] }

/-- A sale request for 5 units of product 1. -/
def req7 : SaleReq :=
  { customerId := none
    items := [⟨1, 5, 100, none, some 0⟩]
    status := .completed
    discountAmount := 0 }

/-- The sale the route stores for `req7` against `db7`. -/
def sale7 : SaleRow :=
  { id := 0
    customerId := none
    totalAmount := saleTotalAmount 500 0 0
    taxAmount := 0
    discountAmount := 0
    status := .completed
    items := [mkSaleItem ⟨1, 5, 100, none, some 0⟩] }

/-- The state after `createSale noFault db7 req7`. -/
def db7res : DB :=
  { products := [⟨1, 100, 0, 0⟩]
    inventory := [⟨1, 0, 5⟩, ⟨1, 1, 5⟩]
    customers := []
    sales := [sale7]
    logs := [] }

/-- A catalog product with `quantity` 10 on the product row itself, as read
by the inventory route. -/
def db8 : DB :=
  { products := [⟨1, 100, 0, 10⟩]
    inventory := []
    customers := []
    sales := []
    logs := [] }

/-- Product 1 with catalog tax rate 10, distinct from the request item's. -/
def db10 : DB :=
  { products := [⟨1, 100, 10, 0⟩]
    inventory := [⟨1, 0, 10⟩]
    customers := []
    sales := []
    logs := [] }

/-- One unit of product 1 whose request item carries `taxRate = 0`. -/
def req10 : SaleReq :=
  { customerId := none
    items := [⟨1, 1, 100, none, some 0⟩]
    status := .completed
    discountAmount := 0 }

/-- The sale the route stores for `req10` against `db10`. -/
def sale10 : SaleRow :=
  { id := 0
    customerId := none
    totalAmount := saleTotalAmount 100 10 0
    taxAmount := 10
    discountAmount := 0
    status := .completed
    items := [mkSaleItem ⟨1, 1, 100, none, some 0⟩] }

/-- A request item carrying an explicit tax rate. -/
def itW1 : ReqItem := ⟨1, 2, 50, none, some 10⟩

/-- A request item omitting the tax rate. -/
def itW2 : ReqItem := ⟨1, 2, 50, none, none⟩


/-- A pending sale of 5 units of product 1, total 100, no customer. -/
def saleP : SaleRow :=
  { id := 0
    customerId := none
    totalAmount := 100
    taxAmount := 0
    discountAmount := 0
    status := .pending
    items := [⟨1, 5, 20, 0, some 0, 100⟩] }

/-- State holding `saleP` with stock 10 of product 1. -/
def dbP : DB :=
  { products := [⟨1, 20, 0, 0⟩]
    inventory := [⟨1, 0, 10⟩]
    customers := []
    sales := [saleP]
    logs := [] }

/-- `saleP` after its completion. -/
def salePdone : SaleRow := { saleP with status := .completed }

/-- The state after completing `saleP`: the trigger decremented stock. -/
def dbPdone : DB :=
  { products := [⟨1, 20, 0, 0⟩]
    inventory := [⟨1, 0, 5⟩]
    customers := []
    sales := [salePdone]
    logs := [] }


end Cpos

namespace Cpos

@[simp] theorem pending_ne_completed :
    SaleStatus.pending ≠ SaleStatus.completed := by decide

@[simp] theorem pending_ne_cancelled :
    SaleStatus.pending ≠ SaleStatus.cancelled := by decide

@[simp] theorem completed_ne_cancelled :
    SaleStatus.completed ≠ SaleStatus.cancelled := by decide

@[simp] theorem cancelled_ne_completed :
    SaleStatus.cancelled ≠ SaleStatus.completed := by decide

@[simp] theorem refunded_ne_completed :
    SaleStatus.refunded ≠ SaleStatus.completed := by decide

@[simp] theorem refunded_ne_cancelled :
    SaleStatus.refunded ≠ SaleStatus.cancelled := by decide

theorem reqQty_nil (pid : Nat) : reqQty [] pid = 0 := rfl

theorem reqQty_cons (it : ReqItem) (rest : List ReqItem) (pid : Nat) :
    reqQty (it :: rest) pid =
      if it.productId = pid then it.quantity + reqQty rest pid
      else reqQty rest pid := rfl

theorem reqQty_eq_zero {items : List ReqItem} {pid : Nat}
    (h : ∀ j ∈ items, j.productId ≠ pid) : reqQty items pid = 0 := by
  induction items with
  | nil => rfl
  | cons it rest ih =>
    rw [reqQty_cons, if_neg (h it (List.mem_cons_self it rest))]
    exact ih (fun j hj => h j (List.mem_cons_of_mem it hj))

theorem reqQty_nonneg {items : List ReqItem} {pid : Nat}
    (h : ∀ j ∈ items, 0 < j.quantity) : 0 ≤ reqQty items pid := by
  induction items with
  | nil => simp [reqQty_nil]
  | cons it rest ih =>
    have hrest : 0 ≤ reqQty rest pid :=
      ih (fun j hj => h j (List.mem_cons_of_mem it hj))
    rw [reqQty_cons]
    by_cases hp : it.productId = pid
    · rw [if_pos hp]
      have := h it (List.mem_cons_self it rest)
      omega
    · rw [if_neg hp]; exact hrest

theorem le_reqQty {items : List ReqItem} {it : ReqItem} {pid : Nat}
    (hpos : ∀ j ∈ items, 0 < j.quantity) (hmem : it ∈ items)
    (hpid : it.productId = pid) : it.quantity ≤ reqQty items pid := by
  induction items with
  | nil => cases hmem
  | cons a rest ih =>
    have hrest : 0 ≤ reqQty rest pid :=
      reqQty_nonneg (fun j hj => hpos j (List.mem_cons_of_mem a hj))
    rw [reqQty_cons]
    rcases List.mem_cons.mp hmem with h | h
    · subst h
      rw [if_pos hpid]
      omega
    · have hit := ih (fun j hj => hpos j (List.mem_cons_of_mem a hj)) h
      by_cases hp : a.productId = pid
      · rw [if_pos hp]
        have := hpos a (List.mem_cons_self a rest)
        omega
      · rw [if_neg hp]; exact hit

/-- A successful run of the inventory update loop decrements every stock
row of each requested product, at every location, by the total requested
quantity of that product. -/
theorem applyInvUpdates_ok_eq :
    ∀ (items : List ReqItem) (ff : Bool) (inv inv' : List InvRow),
      applyInvUpdates ff inv items = .ok inv' →
      inv' = inv.map
        (fun r => { r with quantity := r.quantity - reqQty items r.productId }) := by
  intro items
  induction items with
  | nil =>
    intro ff inv inv' h
    simp only [applyInvUpdates] at h
    cases h
    simp [reqQty_nil]
  | cons it rest ih =>
    intro ff inv inv' h
    cases ff with
    | true => simp [applyInvUpdates] at h
    | false =>
      simp only [applyInvUpdates, Bool.false_eq_true, if_false] at h
      cases hc : checkNonneg (decrementProduct inv it.productId it.quantity)
          it.productId with
      | false => rw [hc] at h; simp at h
      | true =>
        rw [hc] at h
        simp only [if_true] at h
        have := ih false _ _ h
        rw [this, decrementProduct, List.map_map]
        have hfun :
            ((fun r : InvRow =>
                { r with quantity := r.quantity - reqQty rest r.productId }) ∘
              (fun r : InvRow =>
                if r.productId = it.productId then
                  { r with quantity := r.quantity - it.quantity }
                else r)) =
            (fun r : InvRow =>
                { r with quantity := r.quantity - reqQty (it :: rest) r.productId }) := by
          funext r
          by_cases hp : r.productId = it.productId
          · simp only [Function.comp, if_pos hp, reqQty_cons, hp.symm, if_pos]
            congr 1
            omega
          · have : it.productId ≠ r.productId := fun e => hp e.symm
            simp only [Function.comp, if_neg hp, reqQty_cons, if_neg this]
        rw [hfun]

/-- After a successful run of the inventory update loop, every stock row of
a requested product is non-negative (the CHECK constraint held at the last
update touching it). -/
theorem applyInvUpdates_ok_nonneg :
    ∀ (items : List ReqItem) (ff : Bool) (inv inv' : List InvRow),
      applyInvUpdates ff inv items = .ok inv' →
      ∀ r' ∈ inv', (∃ j ∈ items, j.productId = r'.productId) →
        0 ≤ r'.quantity := by
  intro items
  induction items with
  | nil =>
    intro ff inv inv' _ r' _ hex
    obtain ⟨j, hj, _⟩ := hex
    cases hj
  | cons it rest ih =>
    intro ff inv inv' h r' hr' hex
    cases ff with
    | true => simp [applyInvUpdates] at h
    | false =>
      simp only [applyInvUpdates, Bool.false_eq_true, if_false] at h
      cases hc : checkNonneg (decrementProduct inv it.productId it.quantity)
          it.productId with
      | false => rw [hc] at h; simp at h
      | true =>
        rw [hc] at h
        simp only [if_true] at h
        by_cases hrest : ∃ j ∈ rest, j.productId = r'.productId
        · exact ih false _ _ h r' hr' hrest
        · obtain ⟨j, hj, hjp⟩ := hex
          have hjit : j = it := by
            rcases List.mem_cons.mp hj with e | e
            · exact e
            · exact absurd ⟨j, e, hjp⟩ hrest
          rw [hjit] at hjp
          have heq := applyInvUpdates_ok_eq rest false _ _ h
          subst heq
          obtain ⟨r1, hr1, hr1e⟩ := List.mem_map.mp hr'
          have hnone : ∀ x ∈ rest, x.productId ≠ r1.productId := by
            intro x hx e
            exact hrest ⟨x, hx, by rw [e, ← hr1e]⟩
          have hzero : reqQty rest r1.productId = 0 := reqQty_eq_zero hnone
          have hqr : r'.quantity = r1.quantity := by
            rw [← hr1e]; simp [hzero]
          have hpidr : r1.productId = r'.productId := by rw [← hr1e]
          have hall := List.all_eq_true.mp hc r1 hr1
          have hcond : r1.productId = it.productId := hpidr.trans hjp.symm
          rw [if_pos hcond, decide_eq_true_eq] at hall
          rw [hqr]
          exact hall

/-- When the request contains a line whose quantity exceeds an existing
stock row of its product (and all quantities are positive), the inventory
update loop cannot succeed: some intermediate CHECK fails. -/
theorem applyInvUpdates_oversell {items : List ReqItem} {inv : List InvRow}
    {it : ReqItem} {r : InvRow}
    (hpos : ∀ j ∈ items, 0 < j.quantity) (hit : it ∈ items) (hr : r ∈ inv)
    (hpid : r.productId = it.productId) (hlt : r.quantity < it.quantity) :
    ∀ (ff : Bool) (inv' : List InvRow),
      applyInvUpdates ff inv items ≠ .ok inv' := by
  intro ff inv' h
  have heq := applyInvUpdates_ok_eq items ff inv inv' h
  have hmem : ({ r with quantity := r.quantity - reqQty items r.productId } : InvRow)
      ∈ inv' := by
    rw [heq]
    exact List.mem_map.mpr ⟨r, hr, rfl⟩
  have hnn := applyInvUpdates_ok_nonneg items ff inv inv' h _ hmem
    ⟨it, hit, by simp [hpid.symm]⟩
  simp only at hnn
  have hle : it.quantity ≤ reqQty items r.productId :=
    le_reqQty hpos hit hpid.symm
  omega

/-- Every error path of the create-sale route leaves the state untouched:
the totals loop only reads, and the transaction rolls back. -/
theorem createSale_error_db (fault : Fault) (db : DB) (req : SaleReq)
    (h : isErr (createSale fault db req).2 = true) :
    (createSale fault db req).1 = db := by
  unfold createSale
  cases hct : computeTotals db req.items with
  | error pid => rfl
  | ok st =>
    dsimp only
    cases htx : txBody fault db req st.1 st.2 with
    | error e => rfl
    | ok r =>
      exfalso
      unfold createSale at h
      rw [hct] at h
      dsimp only at h
      rw [htx] at h
      simp [isErr] at h

/-- A negative computed total violates `CHECK (total_amount >= 0)` on the
sale insert, aborting the transaction whatever else happens. -/
theorem txBody_err_of_neg {fault : Fault} {db : DB} {req : SaleReq}
    {sub tax : ℚ} (h : saleTotalAmount sub tax req.discountAmount < 0) :
    txBody fault db req sub tax = .error () := by
  simp only [txBody]
  by_cases hsi : fault.saleInsert = true
  · rw [if_pos hsi]
  · rw [if_neg hsi, if_pos h]

/-- Full characterization of a successful create-sale run: the stored sale
header and items, the inventory decrement applied to every location of
every requested product, the untouched audit log and catalog, and the
customer-aggregate increments. -/
theorem createSale_ok_spec {fault : Fault} {db : DB} {req : SaleReq}
    {db' : DB} {s : SaleRow}
    (h : createSale fault db req = (db', .ok s)) :
    ∃ sub tax,
      computeTotals db req.items = .ok (sub, tax) ∧
      s = { id := db.sales.length
            customerId := req.customerId
            totalAmount := saleTotalAmount sub tax req.discountAmount
            taxAmount := tax
            discountAmount := req.discountAmount
            status := req.status
            items := req.items.map mkSaleItem } ∧
      0 ≤ s.totalAmount ∧
      (∃ inv1, applyInvUpdates fault.invUpdate db.inventory req.items = .ok inv1) ∧
      db'.inventory = db.inventory.map
        (fun r => { r with quantity := r.quantity - reqQty req.items r.productId }) ∧
      db'.logs = db.logs ∧
      db'.products = db.products ∧
      db'.sales = db.sales ++ [s] ∧
      (req.customerId = none → db'.customers = db.customers) ∧
      (∀ cid, req.customerId = some cid →
        db'.customers = bumpCustomer db.customers cid s.totalAmount) := by
  unfold createSale at h
  cases hct : computeTotals db req.items with
  | error pid => rw [hct] at h; simp at h
  | ok st =>
    obtain ⟨sub, tax⟩ := st
    rw [hct] at h
    dsimp only at h
    cases htx : txBody fault db req sub tax with
    | error e => rw [htx] at h; simp at h
    | ok r =>
      rw [htx] at h
      dsimp only at h
      obtain ⟨dbS, sale⟩ := r
      have hdb : dbS = db' := congrArg Prod.fst h
      have hs : sale = s := by
        have h2 := congrArg Prod.snd h
        simpa using h2
      subst hdb
      subst hs
      simp only [txBody] at htx
      by_cases hsi : fault.saleInsert = true
      · rw [if_pos hsi] at htx; simp at htx
      rw [if_neg hsi] at htx
      by_cases hneg : saleTotalAmount sub tax req.discountAmount < 0
      · rw [if_pos hneg] at htx; simp at htx
      rw [if_neg hneg] at htx
      by_cases hcu : customerOk db req.customerId = true
      · rw [if_pos hcu] at htx
        cases hinv : applyInvUpdates fault.invUpdate db.inventory req.items with
        | error e => rw [hinv] at htx; simp at htx
        | ok inv1 =>
          rw [hinv] at htx
          have hinvmap := applyInvUpdates_ok_eq _ _ _ _ hinv
          cases hcid : req.customerId with
          | none =>
            rw [hcid] at htx
            dsimp only at htx
            simp only [Except.ok.injEq, Prod.mk.injEq] at htx
            obtain ⟨hdb2, hsale⟩ := htx
            subst hdb2
            subst hsale
            exact ⟨sub, tax, rfl, rfl, not_lt.mp hneg, ⟨inv1, rfl⟩, hinvmap,
              rfl, rfl, rfl, fun _ => rfl,
              fun cid hc => Option.noConfusion hc⟩
          | some cid =>
            rw [hcid] at htx
            dsimp only at htx
            by_cases hcf : fault.custUpdate = true
            · rw [if_pos hcf] at htx; simp at htx
            rw [if_neg hcf] at htx
            simp only [Except.ok.injEq, Prod.mk.injEq] at htx
            obtain ⟨hdb2, hsale⟩ := htx
            subst hdb2
            subst hsale
            refine ⟨sub, tax, rfl, rfl, not_lt.mp hneg, ⟨inv1, rfl⟩, hinvmap,
              rfl, rfl, rfl,
              fun hc => Option.noConfusion hc, ?_⟩
            intro cid' hc
            cases hc
            rfl
      · rw [if_neg hcu] at htx; simp at htx

theorem saleItemQty_nonneg {items : List SaleItemRow} {pid : Nat}
    (h : ∀ it ∈ items, 0 ≤ it.quantity) : 0 ≤ saleItemQty items pid := by
  induction items with
  | nil => simp [saleItemQty]
  | cons a rest ih =>
    have hrest : 0 ≤ saleItemQty rest pid :=
      ih (fun it hit => h it (List.mem_cons_of_mem a hit))
    have ha := h a (List.mem_cons_self a rest)
    unfold saleItemQty at hrest ⊢
    simp only [List.foldr_cons]
    by_cases hp : a.productId = pid
    · rw [if_pos hp]; omega
    · rw [if_neg hp]; exact hrest

/-- Updating the sale row found by id makes the subsequent lookup return
the updated row. -/
theorem find?_update_sales (l : List SaleRow) (sid : Nat) (s s' : SaleRow)
    (h : l.find? (fun t => decide (t.id = sid)) = some s) (hs' : s'.id = sid) :
    (l.map (fun t => if t.id = sid then s' else t)).find?
      (fun t => decide (t.id = sid)) = some s' := by
  induction l with
  | nil => simp [List.find?] at h
  | cons a l ih =>
    by_cases ha : a.id = sid
    · simp only [List.map_cons, if_pos ha]
      rw [List.find?_cons_of_pos]
      simp [hs']
    · have h' : l.find? (fun t => decide (t.id = sid)) = some s := by
        rw [List.find?_cons_of_neg] at h
        · exact h
        · simp [ha]
      simp only [List.map_cons, if_neg ha]
      rw [List.find?_cons_of_neg]
      · exact ih h'
      · simp [ha]

/-- The reversal trigger exactly undoes the completion trigger on stock. -/
theorem invApplyDelta_inv (inv : List InvRow) (items : List SaleItemRow) :
    invApplyDelta (invApplyDelta inv items (-1)) items 1 = inv := by
  unfold invApplyDelta
  rw [List.map_map]
  have hfun : ∀ r : InvRow,
      ((fun r : InvRow =>
          if soldBy items r.productId then
            { r with quantity := r.quantity + 1 * saleItemQty items r.productId }
          else r) ∘
        (fun r : InvRow =>
          if soldBy items r.productId then
            { r with quantity := r.quantity + (-1) * saleItemQty items r.productId }
          else r)) r = r := by
    intro r
    obtain ⟨pid, loc, q⟩ := r
    by_cases hs : soldBy items pid = true
    · simp only [Function.comp, if_pos hs, InvRow.mk.injEq]
      exact ⟨trivial, trivial, by ring⟩
    · simp only [Function.comp, if_neg hs]
  rw [List.map_congr_left (fun r _ => hfun r)]
  exact List.map_id' inv

/-- The trigger's CHECK passes when every stock row is non-negative. -/
theorem deltaRowsOk_of_nonneg {inv : List InvRow} {items : List SaleItemRow}
    (h : ∀ r ∈ inv, 0 ≤ r.quantity) : deltaRowsOk inv items = true := by
  apply List.all_eq_true.mpr
  intro r hr
  by_cases hs : soldBy items r.productId = true
  · rw [if_pos hs, decide_eq_true_eq]
    exact h r hr
  · rw [if_neg hs]

/-- A status write that keeps a completed sale completed fires no trigger
effect. -/
theorem updateSaleStatus_same_completed {db : DB} {sid : Nat} {s : SaleRow}
    (hfind : db.sales.find? (fun t => decide (t.id = sid)) = some s)
    (hst : s.status = SaleStatus.completed) :
    updateSaleStatus db sid (some .completed) =
      ({ db with sales := (db.sales.map
          (fun t => if t.id = sid then { s with status := SaleStatus.completed }
                    else t)) },
       .ok { s with status := SaleStatus.completed }) := by
  unfold updateSaleStatus
  rw [hfind]
  dsimp only [Option.getD]
  rw [if_neg (by simp [hst]), if_neg (by simp)]

/-- A transition into completed from a non-completed state runs the
decrement trigger; its CHECK decides success. -/
theorem updateSaleStatus_enter {db : DB} {sid : Nat} {s : SaleRow}
    (hfind : db.sales.find? (fun t => decide (t.id = sid)) = some s)
    (hst : s.status ≠ SaleStatus.completed) :
    updateSaleStatus db sid (some .completed) =
      (if deltaRowsOk (invApplyDelta db.inventory s.items (-1)) s.items then
        ({ db with
            sales := (db.sales.map
              (fun t => if t.id = sid then { s with status := SaleStatus.completed }
                        else t))
            inventory := invApplyDelta db.inventory s.items (-1)
            customers := (custApply db.customers s.customerId
              (fun tp => tp + s.totalAmount)) },
         .ok { s with status := SaleStatus.completed })
       else (db, .error .internalError)) := by
  unfold updateSaleStatus
  rw [hfind]
  dsimp only [Option.getD]
  rw [if_pos ⟨rfl, hst⟩]

/-- A completed → cancelled transition runs the reversal trigger; its CHECK
decides success. -/
theorem updateSaleStatus_cancel {db : DB} {sid : Nat} {s : SaleRow}
    (hfind : db.sales.find? (fun t => decide (t.id = sid)) = some s)
    (hst : s.status = SaleStatus.completed) :
    updateSaleStatus db sid (some .cancelled) =
      (if deltaRowsOk (invApplyDelta db.inventory s.items 1) s.items then
        ({ db with
            sales := (db.sales.map
              (fun t => if t.id = sid then { s with status := SaleStatus.cancelled }
                        else t))
            inventory := invApplyDelta db.inventory s.items 1
            customers := (custApply db.customers s.customerId
              (fun tp => max (tp - s.totalAmount) 0)) },
         .ok { s with status := SaleStatus.cancelled })
       else (db, .error .internalError)) := by
  unfold updateSaleStatus
  rw [hfind]
  dsimp only [Option.getD]
  rw [if_neg (by simp), if_pos ⟨rfl, hst⟩]

/-- A transition to refunded never fires either trigger branch: only the
status is written. -/
theorem updateSaleStatus_refunded {db : DB} {sid : Nat} {s : SaleRow}
    (hfind : db.sales.find? (fun t => decide (t.id = sid)) = some s) :
    updateSaleStatus db sid (some .refunded) =
      ({ db with sales := (db.sales.map
          (fun t => if t.id = sid then { s with status := SaleStatus.refunded }
                    else t)) },
       .ok { s with status := SaleStatus.refunded }) := by
  unfold updateSaleStatus
  rw [hfind]
  dsimp only [Option.getD]
  rw [if_neg (by simp), if_neg (by simp)]


/-- C1: for every createSale call that fails at any internal step, no sale,
sale item, stock change, audit entry, or customer aggregate change is
observable afterward — the state equals the pre-call state exactly. -/
theorem claim1_createSale_atomic (fault : Fault) (db : DB) (req : SaleReq)
    (h : isErr (createSale fault db req).2 = true) :
    (createSale fault db req).1 = db :=
  createSale_error_db fault db req h

theorem claim1_createSale_atomic_witness :
    isErr (createSale noFault dbA reqMissing).2 = true ∧
    (createSale noFault dbA reqMissing).1 = dbA := by
  have hh : isErr (createSale noFault dbA reqMissing).2 = true := by
    simp [createSale, computeTotals, findProduct, dbA, reqMissing, noFault,
      isErr, List.find?]
  exact ⟨hh, claim1_createSale_atomic noFault dbA reqMissing hh⟩

/-- C2 counterexample: with stock 3 of product 1, a sale requesting 5 units
does fail and leaves stock unchanged, but the error surfaced is the generic
500 internal error of the transaction catch block, not a
ConflictError/InsufficientStock. -/
theorem claim2_counterexample :
    (createSale noFault db2 req2).2 = .error .internalError ∧
    SaleError.httpStatus .internalError = 500 ∧
    (createSale noFault db2 req2).1 = db2 := by
  refine ⟨?_, rfl, ?_⟩ <;>
    norm_num [createSale, computeTotals, findProduct, txBody, saleTotalAmount,
      mkSaleItem, applyInvUpdates, decrementProduct, checkNonneg, customerOk,
      db2, req2, noFault, List.find?, List.all]

/-- C2 (amended): a createSale call containing a line whose quantity exceeds
an existing stock row of its product (all line quantities positive) fails as
a whole — the `CHECK (quantity >= 0)` aborts the transaction, surfaced as a
generic 500 — and every stock quantity is left unchanged; the decrement is
never applied negatively and never clamped. -/
theorem claim2_oversell_rejected (fault : Fault) (db : DB) (req : SaleReq)
    (hpos : ∀ it ∈ req.items, 0 < it.quantity)
    (hover : ∃ it ∈ req.items, ∃ r ∈ db.inventory,
      r.productId = it.productId ∧ r.quantity < it.quantity) :
    isErr (createSale fault db req).2 = true ∧
    (createSale fault db req).1 = db := by
  have hnotok : ∀ db' s, createSale fault db req ≠ (db', .ok s) := by
    intro db' s hEq
    obtain ⟨sub, tax, _, _, _, ⟨inv1, hinv⟩, _, _, _, _, _, _⟩ :=
      createSale_ok_spec hEq
    obtain ⟨it, hit, r0, hr0, hpid, hlt⟩ := hover
    exact applyInvUpdates_oversell hpos hit hr0 hpid hlt _ _ hinv
  have herr : isErr (createSale fault db req).2 = true := by
    rcases hres : createSale fault db req with ⟨db', res⟩
    cases res with
    | ok s => exact absurd hres (hnotok db' s)
    | error e => rfl
  exact ⟨herr, createSale_error_db fault db req herr⟩

theorem claim2_oversell_rejected_witness :
    isErr (createSale noFault db2 req2).2 = true ∧
    (createSale noFault db2 req2).1 = db2 :=
  claim2_oversell_rejected noFault db2 req2
    (by
      intro it hit
      simp only [req2, List.mem_singleton] at hit
      subst hit
      decide)
    ⟨⟨1, 5, 100, none, some 0⟩, by simp [req2], ⟨1, 0, 3⟩, by simp [db2],
      rfl, by decide⟩

/-- C3 counterexample: the route computes `totalAmount = subtotal +
taxAmount - discountAmount` with no flooring; for subtotal 100, tax 8,
discount 200 the computed total is −92, not 0, and the sale creation fails
with a 500 instead of storing a total of 0. -/
theorem claim3_counterexample :
    saleTotalAmount 100 8 200 = -92 ∧
    saleTotalAmount 100 8 200 ≠ 0 ∧
    (createSale noFault db3 req3).2 = .error .internalError := by
  refine ⟨by norm_num [saleTotalAmount], by norm_num [saleTotalAmount], ?_⟩
  norm_num [createSale, computeTotals, findProduct, txBody, saleTotalAmount,
    mkSaleItem, applyInvUpdates, decrementProduct, checkNonneg, customerOk,
    db3, req3, noFault, List.find?, List.all]

/-- C3 (amended): `totalAmount = subtotal + taxAmount − discountAmount` with
no flooring.  A stored sale's total equals that difference (and is
non-negative, enforced by `CHECK (total_amount >= 0)`); when discountAmount
exceeds subtotal + taxAmount the computed total is negative and the whole
creation fails with a 500, leaving the state unchanged — the total is never
clamped to 0. -/
theorem claim3_total_formula (fault : Fault) (db : DB) (req : SaleReq) :
    (∀ db' s sub tax, createSale fault db req = (db', .ok s) →
      computeTotals db req.items = .ok (sub, tax) →
      s.totalAmount = sub + tax - req.discountAmount ∧ 0 ≤ s.totalAmount) ∧
    (∀ sub tax, computeTotals db req.items = .ok (sub, tax) →
      sub + tax - req.discountAmount < 0 →
      isErr (createSale fault db req).2 = true ∧
      (createSale fault db req).1 = db) := by
  constructor
  · intro db' s sub tax h hct
    obtain ⟨sub', tax', hct', hs, hnn, _, _, _, _, _, _, _⟩ :=
      createSale_ok_spec h
    rw [hct] at hct'
    simp only [Except.ok.injEq, Prod.mk.injEq] at hct'
    obtain ⟨hsub, htax⟩ := hct'
    subst hs
    refine ⟨?_, hnn⟩
    dsimp only
    simp only [saleTotalAmount]
    rw [← hsub, ← htax]
  · intro sub tax hct hneg
    have herr : isErr (createSale fault db req).2 = true := by
      unfold createSale
      rw [hct]
      dsimp only
      rw [txBody_err_of_neg hneg]
      rfl
    exact ⟨herr, createSale_error_db fault db req herr⟩


theorem claim3_total_formula_witness :
    sale3.totalAmount = 100 + 8 - 10 ∧ 0 ≤ sale3.totalAmount := by
  have heq : createSale noFault db3 req3ok = (db3res, .ok sale3) := by
    norm_num [createSale, computeTotals, findProduct, txBody, saleTotalAmount,
      applyInvUpdates, decrementProduct, checkNonneg, customerOk, db3, db3res,
      req3ok, sale3, noFault, List.find?, List.all]
  have hct : computeTotals db3 req3ok.items = .ok (100, 8) := by
    norm_num [computeTotals, findProduct, db3, req3ok, List.find?]
  exact (claim3_total_formula noFault db3 req3ok).1 db3res sale3 100 8 heq hct

/-- C4: re-completing a completed sale fires no trigger effect on stock or
customer aggregates, and the sequence pending → completed → cancelled
restores every stock quantity to its value before the completion. -/
theorem claim4_status_idempotent_inverse :
    (∀ (db : DB) (sid : Nat) (s : SaleRow),
        db.sales.find? (fun t => decide (t.id = sid)) = some s →
        s.status = SaleStatus.completed →
        (updateSaleStatus db sid (some .completed)).1.inventory = db.inventory ∧
        (updateSaleStatus db sid (some .completed)).1.customers = db.customers) ∧
    (∀ (db : DB) (sid : Nat) (s : SaleRow) (db1 : DB) (r1 : SaleRow),
        db.sales.find? (fun t => decide (t.id = sid)) = some s →
        s.status = SaleStatus.pending →
        (∀ r ∈ db.inventory, 0 ≤ r.quantity) →
        updateSaleStatus db sid (some .completed) = (db1, .ok r1) →
        ∃ db2 r2, updateSaleStatus db1 sid (some .cancelled) = (db2, .ok r2) ∧
          db2.inventory = db.inventory) := by
  constructor
  · intro db sid s hfind hst
    rw [updateSaleStatus_same_completed hfind hst]
    exact ⟨rfl, rfl⟩
  · intro db sid s db1 r1 hfind hpend hnn hstep
    have hne : s.status ≠ SaleStatus.completed := by simp [hpend]
    rw [updateSaleStatus_enter hfind hne] at hstep
    by_cases hchk :
        deltaRowsOk (invApplyDelta db.inventory s.items (-1)) s.items = true
    · rw [if_pos hchk] at hstep
      have hdb1 := congrArg Prod.fst hstep
      dsimp only at hdb1
      have hsid : s.id = sid := by
        have hp := List.find?_some hfind
        simpa using hp
      have hsales : db1.sales = db.sales.map
          (fun t => if t.id = sid then { s with status := SaleStatus.completed }
                    else t) := by
        rw [← hdb1]
      have hinv : db1.inventory = invApplyDelta db.inventory s.items (-1) := by
        rw [← hdb1]
      have hfind1 : db1.sales.find? (fun t => decide (t.id = sid)) =
          some { s with status := SaleStatus.completed } := by
        rw [hsales]
        exact find?_update_sales db.sales sid s _ hfind hsid
      have hcancel := @updateSaleStatus_cancel db1 sid _ hfind1 rfl
      dsimp only at hcancel
      have hchk2 : deltaRowsOk (invApplyDelta db1.inventory s.items 1)
          s.items = true := by
        rw [hinv, invApplyDelta_inv]
        exact deltaRowsOk_of_nonneg hnn
      rw [if_pos hchk2] at hcancel
      refine ⟨_, _, hcancel, ?_⟩
      dsimp only
      rw [hinv]
      exact invApplyDelta_inv db.inventory s.items
    · rw [if_neg hchk] at hstep
      exact absurd (congrArg Prod.snd hstep) (by simp)

theorem claim4_status_idempotent_inverse_witness :
    ((updateSaleStatus db6 0 (some .completed)).1.inventory = db6.inventory ∧
     (updateSaleStatus db6 0 (some .completed)).1.customers = db6.customers) ∧
    (∃ db2 r2, updateSaleStatus dbPdone 0 (some .cancelled) = (db2, .ok r2) ∧
      db2.inventory = dbP.inventory) := by
  constructor
  · exact claim4_status_idempotent_inverse.1 db6 0 sale6
      (by simp [db6, sale6, List.find?]) rfl
  · exact claim4_status_idempotent_inverse.2 dbP 0 saleP dbPdone salePdone
      (by simp [dbP, saleP, List.find?]) rfl (by decide)
      (by norm_num [updateSaleStatus, dbP, dbPdone, saleP, salePdone,
        invApplyDelta, saleItemQty, soldBy, deltaRowsOk, custApply,
        List.find?, List.all, List.any])

/-- C5 counterexample: creating a sale with initial status pending already
decrements stock (claim: no effect before completion), and completing it
afterwards decrements stock a second time (claim: effects exactly once). -/
theorem claim5_counterexample :
    (createSale noFault db5 req5).1.inventory = [⟨1, 0, 5⟩] ∧
    (updateSaleStatus (createSale noFault db5 req5).1 0
        (some .completed)).1.inventory = [⟨1, 0, 0⟩] := by
  have h1 : createSale noFault db5 req5 = (db5res, .ok sale5) := by
    norm_num [createSale, computeTotals, findProduct, txBody, saleTotalAmount,
      applyInvUpdates, decrementProduct, checkNonneg, customerOk, db5, db5res,
      req5, sale5, noFault, List.find?, List.all]
  rw [h1]
  constructor
  · norm_num [db5res]
  · norm_num [updateSaleStatus, db5res, sale5, mkSaleItem, invApplyDelta,
      saleItemQty, soldBy, deltaRowsOk, custApply, List.find?, List.all,
      List.any]

/-- C5 (amended): every successful createSale applies the stock decrement
and (when a customer is given) the customer-aggregate increments at creation
time, whatever the requested initial status; the completion trigger later
applies the stock and totalPurchases effects a second time. -/
theorem claim5_effects_at_creation (fault : Fault) (db : DB) (req : SaleReq)
    (db' : DB) (s : SaleRow) (h : createSale fault db req = (db', .ok s)) :
    s.status = req.status ∧
    db'.inventory = db.inventory.map
      (fun r => { r with quantity := r.quantity - reqQty req.items r.productId }) ∧
    (∀ cid, req.customerId = some cid →
      db'.customers = bumpCustomer db.customers cid s.totalAmount) := by
  obtain ⟨sub, tax, _, hs, _, _, hinv, _, _, _, _, hsome⟩ :=
    createSale_ok_spec h
  refine ⟨?_, hinv, hsome⟩
  rw [hs]

theorem claim5_effects_at_creation_witness :
    sale5.status = req5.status ∧
    db5res.inventory = db5.inventory.map
      (fun r => { r with quantity := r.quantity - reqQty req5.items r.productId }) := by
  have h := claim5_effects_at_creation noFault db5 req5 db5res sale5
    (by norm_num [createSale, computeTotals, findProduct, txBody,
      saleTotalAmount, applyInvUpdates, decrementProduct, checkNonneg,
      customerOk, db5, db5res, req5, sale5, noFault, List.find?, List.all])
  exact ⟨h.1, h.2.1⟩


/-- Updating the product row found by id makes the subsequent lookup return
the updated row. -/
theorem find?_update_products (l : List ProductRow) (pid : Nat)
    (p p' : ProductRow)
    (h : l.find? (fun q => decide (q.id = pid)) = some p) (hp' : p'.id = pid) :
    (l.map (fun q => if q.id = pid then p' else q)).find?
      (fun q => decide (q.id = pid)) = some p' := by
  induction l with
  | nil => simp [List.find?] at h
  | cons a l ih =>
    by_cases ha : a.id = pid
    · simp only [List.map_cons, if_pos ha]
      rw [List.find?_cons_of_pos]
      simp [hp']
    · have h' : l.find? (fun q => decide (q.id = pid)) = some p := by
        rw [List.find?_cons_of_neg] at h
        · exact h
        · simp [ha]
      simp only [List.map_cons, if_neg ha]
      rw [List.find?_cons_of_neg]
      · exact ih h'
      · simp [ha]

/-- C6 counterexample: a completed → refunded transition changes neither
stock nor customer rows (the triggers only handle `cancelled`), and a
completed → cancelled transition leaves `loyaltyPoints` untouched (only
`totalPurchases` is reversed) — both contradicting the claim. -/
theorem claim6_counterexample :
    (updateSaleStatus db6 0 (some .refunded)).1.inventory = db6.inventory ∧
    (updateSaleStatus db6 0 (some .refunded)).1.customers = db6.customers ∧
    (updateSaleStatus db6 0 (some .cancelled)).1.customers = [⟨7, 0, 10⟩] := by
  refine ⟨?_, ?_, ?_⟩ <;>
    norm_num [updateSaleStatus, db6, sale6, invApplyDelta, saleItemQty,
      soldBy, deltaRowsOk, custApply, List.find?, List.all, List.any]

/-- C6 (amended): only the completed → cancelled transition reverses a
sale: every stock row of a sold product is incremented by the sale's
per-product item total and the customer's totalPurchases is decremented by
totalAmount clamped at 0 (`GREATEST(.., 0)`), while loyaltyPoints is left
unchanged; a completed → refunded transition applies no stock or aggregate
change at all. -/
theorem claim6_reversal (db : DB) (sid : Nat) (s : SaleRow) (cid : Nat)
    (hfind : db.sales.find? (fun t => decide (t.id = sid)) = some s)
    (hst : s.status = SaleStatus.completed)
    (hcid : s.customerId = some cid)
    (hnn : ∀ r ∈ db.inventory, 0 ≤ r.quantity)
    (hq : ∀ it ∈ s.items, 0 ≤ it.quantity) :
    ((updateSaleStatus db sid (some .cancelled)).1.inventory =
       db.inventory.map (fun r =>
         if soldBy s.items r.productId then
           { r with quantity := r.quantity + saleItemQty s.items r.productId }
         else r) ∧
     (updateSaleStatus db sid (some .cancelled)).1.customers =
       db.customers.map (fun cu =>
         if cu.id = cid then
           { cu with totalPurchases := max (cu.totalPurchases - s.totalAmount) 0 }
         else cu) ∧
     isErr (updateSaleStatus db sid (some .cancelled)).2 = false) ∧
    ((updateSaleStatus db sid (some .refunded)).1.inventory = db.inventory ∧
     (updateSaleStatus db sid (some .refunded)).1.customers = db.customers) := by
  have hchk : deltaRowsOk (invApplyDelta db.inventory s.items 1)
      s.items = true := by
    apply List.all_eq_true.mpr
    intro x hx
    obtain ⟨r, hr, hxr⟩ := List.mem_map.mp hx
    subst hxr
    by_cases hsold : soldBy s.items r.productId = true
    · rw [if_pos hsold]
      dsimp only
      rw [if_pos hsold, decide_eq_true_eq]
      have h1 : 0 ≤ saleItemQty s.items r.productId := saleItemQty_nonneg hq
      have h2 : 0 ≤ r.quantity := hnn r hr
      omega
    · rw [if_neg hsold]
      rw [if_neg hsold]
  have hcancel := updateSaleStatus_cancel hfind hst
  rw [if_pos hchk] at hcancel
  have href := updateSaleStatus_refunded hfind
  rw [hcancel, href]
  refine ⟨⟨?_, ?_, rfl⟩, rfl, rfl⟩
  · dsimp only
    simp only [invApplyDelta, one_mul]
  · dsimp only
    rw [hcid]
    simp only [custApply]

theorem claim6_reversal_witness :
    ((updateSaleStatus db6 0 (some .cancelled)).1.inventory =
       db6.inventory.map (fun r =>
         if soldBy sale6.items r.productId then
           { r with quantity := r.quantity + saleItemQty sale6.items r.productId }
         else r) ∧
     (updateSaleStatus db6 0 (some .cancelled)).1.customers =
       db6.customers.map (fun cu =>
         if cu.id = 7 then
           { cu with totalPurchases := max (cu.totalPurchases - sale6.totalAmount) 0 }
         else cu) ∧
     isErr (updateSaleStatus db6 0 (some .cancelled)).2 = false) ∧
    ((updateSaleStatus db6 0 (some .refunded)).1.inventory = db6.inventory ∧
     (updateSaleStatus db6 0 (some .refunded)).1.customers = db6.customers) :=
  claim6_reversal db6 0 sale6 7 (by simp [db6, sale6, List.find?]) rfl rfl
    (by decide) (by decide)

/-- C7 counterexample: with product 1 stocked at two locations, a
successful one-line sale decrements both locations (updateMany has no
location filter) and appends no audit entry at all — against the claim's
single default-location decrement and one `"sale"` audit entry per line. -/
theorem claim7_counterexample :
    (createSale noFault db7 req7).1.inventory = [⟨1, 0, 5⟩, ⟨1, 1, 5⟩] ∧
    (createSale noFault db7 req7).1.logs = [] ∧
    isErr (createSale noFault db7 req7).2 = false := by
  refine ⟨?_, ?_, ?_⟩ <;>
    norm_num [createSale, computeTotals, findProduct, txBody, saleTotalAmount,
      applyInvUpdates, decrementProduct, checkNonneg, customerOk, db7, req7,
      noFault, isErr, List.find?, List.all]

/-- C7 (amended): for every successful createSale, every stock row of each
requested product — at every location — is decremented by that product's
total requested quantity, and no inventory audit entry is written. -/
theorem claim7_every_location_no_audit (fault : Fault) (db : DB)
    (req : SaleReq) (db' : DB) (s : SaleRow)
    (h : createSale fault db req = (db', .ok s)) :
    db'.inventory = db.inventory.map
      (fun r => { r with quantity := r.quantity - reqQty req.items r.productId }) ∧
    db'.logs = db.logs := by
  obtain ⟨_, _, _, _, _, _, hinv, hlogs, _, _, _, _⟩ := createSale_ok_spec h
  exact ⟨hinv, hlogs⟩

theorem claim7_every_location_no_audit_witness :
    db7res.inventory = db7.inventory.map
      (fun r => { r with quantity := r.quantity - reqQty req7.items r.productId }) ∧
    db7res.logs = db7.logs :=
  claim7_every_location_no_audit noFault db7 req7 db7res sale7
    (by norm_num [createSale, computeTotals, findProduct, txBody,
      saleTotalAmount, applyInvUpdates, decrementProduct, checkNonneg,
      customerOk, db7, db7res, req7, sale7, noFault, List.find?, List.all])

/-- C8 counterexample: when the audit-log insert fails after the product
update, the quantity change is retained (15) while no audit entry exists —
the two writes are not atomic. -/
theorem claim8_counterexample :
    (adjustStock ⟨true⟩ db8 1 5 .add).1.products = [⟨1, 100, 0, 15⟩] ∧
    (adjustStock ⟨true⟩ db8 1 5 .add).1.logs = [] ∧
    (adjustStock ⟨true⟩ db8 1 5 .add).2 = .error .internalError := by
  refine ⟨?_, ?_, ?_⟩ <;>
    norm_num [adjustStock, findProduct, adjNewQuantity, db8, List.find?]

/-- C8 (amended): every accepted adjustStock call that completes writes
exactly one audit entry whose previousQuantity is the pre-call quantity and
whose newQuantity equals the product's stock quantity immediately after the
call; but the quantity update and the audit insert are separate writes, so
a failing audit insert leaves the quantity change in place. -/
theorem claim8_audit_exact (db : DB) (pid : Nat) (amount : ℚ) (op : StockOp)
    (p : ProductRow) (hval : ¬(amount = 0 ∨ amount < 0))
    (hfind : findProduct db pid = some p) :
    (adjustStock ⟨false⟩ db pid amount op).1.logs =
      db.logs ++ [{ productId := pid, operation := op, quantity := amount,
                    previousQuantity := p.quantity,
                    newQuantity := adjNewQuantity op p.quantity amount }] ∧
    findProduct (adjustStock ⟨false⟩ db pid amount op).1 pid =
      some { p with quantity := adjNewQuantity op p.quantity amount } ∧
    (adjustStock ⟨false⟩ db pid amount op).2 =
      .ok { p with quantity := adjNewQuantity op p.quantity amount } := by
  have hpid : p.id = pid := by
    have hp := List.find?_some hfind
    simpa using hp
  unfold adjustStock
  rw [if_neg hval, hfind]
  dsimp only
  simp only [Bool.false_eq_true, if_false]
  refine ⟨trivial, ?_, trivial⟩
  exact find?_update_products db.products pid p _ hfind hpid

theorem claim8_audit_exact_witness :
    (adjustStock ⟨false⟩ db8 1 5 .add).1.logs =
      db8.logs ++ [{ productId := 1, operation := .add, quantity := 5,
                     previousQuantity := 10,
                     newQuantity := adjNewQuantity .add 10 5 }] ∧
    findProduct (adjustStock ⟨false⟩ db8 1 5 .add).1 1 =
      some ⟨1, 100, 0, adjNewQuantity .add 10 5⟩ ∧
    (adjustStock ⟨false⟩ db8 1 5 .add).2 =
      .ok ⟨1, 100, 0, adjNewQuantity .add 10 5⟩ :=
  claim8_audit_exact db8 1 5 .add ⟨1, 100, 0, 10⟩ (by norm_num)
    (by simp [findProduct, db8, List.find?])

/-- C9 (code bug): `operation=set, quantity=0` is rejected with 400 by the
falsy check `!quantity || quantity < 0`, leaving the state unchanged,
although the route's own schema documents `minimum: 0` and the spec says
`set` accepts 0. -/
theorem claim9_zero_set_rejected :
    adjustStock ⟨false⟩ db8 1 0 .set = (db8, .error .invalidQuantity) := by
  simp [adjustStock]

/-- C10: each stored sale item's taxAmount is computed from the request
item's own fields — `unitPrice * quantity * taxRate / 100` — not the
catalog product; an omitted item taxRate yields NaN; and the sale header's
taxAmount (from catalog taxRate) need not equal the sum of the items'
taxAmounts. -/
theorem claim10_item_tax_from_request :
    (∀ (it : ReqItem) (r : ℚ), it.taxRate = some r →
      (mkSaleItem it).taxAmount =
        some (it.unitPrice * (it.quantity : ℚ) * r / 100)) ∧
    (∀ it : ReqItem, it.taxRate = none → (mkSaleItem it).taxAmount = none) ∧
    (∃ s : SaleRow, (createSale noFault db10 req10).2 = .ok s ∧
      s.items.foldr (fun it a => jsAdd it.taxAmount a) (some 0) ≠
        some s.taxAmount) := by
  refine ⟨?_, ?_, ⟨sale10, ?_, ?_⟩⟩
  · intro it r h
    simp [mkSaleItem, h]
  · intro it h
    simp [mkSaleItem, h]
  · norm_num [createSale, computeTotals, findProduct, txBody, saleTotalAmount,
      applyInvUpdates, decrementProduct, checkNonneg, customerOk, db10, req10,
      sale10, noFault, List.find?, List.all]
  · simp only [sale10, mkSaleItem, List.foldr]
    norm_num [jsAdd, saleTotalAmount]

theorem claim10_item_tax_from_request_witness :
    (mkSaleItem itW1).taxAmount =
      some (itW1.unitPrice * (itW1.quantity : ℚ) * 10 / 100) ∧
    (mkSaleItem itW2).taxAmount = none := by
  have h := claim10_item_tax_from_request
  exact ⟨h.1 itW1 10 rfl, h.2.1 itW2 rfl⟩

end Cpos
